import Mathlib

/-!
Verification of the `uolbot` leaderboard engine (`src/tiax.py`).

This file gives a shallow embedding of the parts of `tiax.py` that the
claims are about:

* the fixed tier/division orderings and the score computation of
  `sortByTier` (lines 306-358), including the `nameDictByKeyValue`
  helper (lines 361-377);
* the refresh cycle `Tiax.getSummoners` (lines 188-217);
* persistence, `Tiax.save_to_file` (lines 159-169) and
  `Tiax.load_from_file` (lines 171-186);
* the delta-annotation loop of `Tiax.generateLeaderboardEmbed`
  (lines 240-274);
* Python's class-attribute semantics for `Tiax.summ_data`
  (lines 96-113), modelled with an explicit heap, for the cross-session
  isolation claim.

Python dictionaries are modelled as association lists with unique keys
(insertion-ordered, as Python dicts are); JSON payloads from the remote
service are modelled as typed records; a fetch that returns `False`
(non-2xx status) is the `Fetch.fail` constructor; Python exceptions are
modelled with `Except PyErr`.  Discord delivery (lines 210-215) and file
IO mechanics are outside the model: `save_to_file` returns the file
content it would write, `load_from_file` takes the parsed content as an
argument.
-/

set_option autoImplicit false

namespace Uol

universe u

variable {α : Type u} {β : Type u}

/-- A Python exception (only the kinds this code can raise matter). -/
inductive PyErr : Type where
  | typeError
  | keyError
deriving Repr, DecidableEq

/-- Result of `Tiax._fetch_riot` (lines 137-150): `False` on a non-2xx
status, otherwise the decoded JSON payload. -/
inductive Fetch (α : Type) : Type where
  | fail
  | ok (val : α)
deriving Repr, DecidableEq

/-- `True` exactly on the failure marker `False`. -/
def isFail {α : Type} : Fetch α → Bool
  | .fail => true
  | .ok _ => false

/-- The summoner profile returned by the `by-name` endpoint; only the
fields the code reads (`["id"]`, `["name"]`) are modelled. -/
structure SummData : Type where
  id : String
  name : String
deriving Repr, DecidableEq

/-- One league entry returned by the `by-summoner` endpoint; the fields
`sortByTier` reads. -/
structure LeagueEntry : Type where
  queueType : String
  tier : String
  rank : String
  leaguePoints : Int
  wins : Int
  losses : Int
deriving Repr, DecidableEq

/-- One row of `to_table` in `generateLeaderboardEmbed`
(`[str(pos), name, rangText, wins, losses]`).  The position cell is the
string `str(spot)`; it is stored here as the number `spot` itself, which
is faithful for every table the code produces (the code always writes
`str(li + 1)` and reads it back with `int(...)`). -/
structure TableRow : Type where
  spot : Nat
  name : String
  rang : String
  wins : Int
  losses : Int
deriving Repr, DecidableEq

/-- A row of the rendered table (`ranking`): the position cell may carry
a movement annotation, so it is a plain string here. -/
structure DisplayRow : Type where
  spot : String
  name : String
  rang : String
  wins : Int
  losses : Int
deriving Repr, DecidableEq

/-- The `config` block written by `save_to_file` (lines 163-168). -/
structure ConfigBlock : Type where
  last_ranks : List (String × List TableRow)
  show_unrankeds : Bool
  send_updates : Bool
  update_interval : Int
  updates_channel : Option String
deriving Repr, DecidableEq

/-- One value of the `summ_data` dict.  In the source this is a free-form
dict: a player entry has optional keys `"data"` and `"info"`, while the
`"config"` pseudo-entry written by `save_to_file` has the five config
keys (modelled as the `conf` component).  `info` stores the raw result of
the ranking fetch, which can be the failure marker `False`
(line 203 stores it without checking). -/
structure Entry : Type where
  data : Option SummData
  info : Option (Fetch (List LeagueEntry))
  conf : Option ConfigBlock
deriving Repr, DecidableEq

/-- In-memory state of one `Tiax` session (lines 96-109); the guild id
only names the state file and is not part of the model. -/
structure TiaxState : Type where
  summ_data : List (String × Entry)
  last_ranks : List (String × List TableRow)
  send_updates : Bool
  update_interval : Int
  updates_channel : Option String
  show_unranked_players : Bool
deriving Repr, DecidableEq

/-! ### Python dict operations on association lists -/

/-- `d[k]` as an option (Python raises `KeyError` when absent). -/
def dictGet? : List (String × α) → String → Option α
  | [], _ => none
  | (k', v) :: rest, k => if k' = k then some v else dictGet? rest k

/-- `d[k] = v`: replace in place if the key exists, else append. -/
def dictSet : List (String × α) → String → α → List (String × α)
  | [], k, v => [(k, v)]
  | (k', v') :: rest, k, v =>
    if k' = k then (k, v) :: rest else (k', v') :: dictSet rest k v

/-- `d.pop(k)`: drop the entry with key `k` (keys are unique). -/
def dictPop : List (String × α) → String → List (String × α)
  | [], _ => []
  | (k', v') :: rest, k => if k' = k then rest else (k', v') :: dictPop rest k

/-- Mutate the value stored at key `k` in place. -/
def updateEntry : List (String × α) → String → (α → α) → List (String × α)
  | [], _, _ => []
  | (k', v) :: rest, k, f =>
    if k' = k then (k', f v) :: rest else (k', v) :: updateEntry rest k f

/-- `list.index(x)` as an option: index of the first element satisfying
`p`, or `none` where Python raises `ValueError`. -/
def findFirstIdx {γ : Type} (p : γ → Bool) : List γ → Option Nat
  | [] => none
  | a :: l => if p a then some 0 else (findFirstIdx p l).map (· + 1)

/-- `l[i]` as an option (Python raises `IndexError` out of range). -/
def getIdx? {γ : Type} : List γ → Nat → Option γ
  | [], _ => none
  | a :: _, 0 => some a
  | _ :: l, n + 1 => getIdx? l n

/-! ### `sortByTier` (lines 306-358) and `nameDictByKeyValue` (lines 361-377) -/

/-- The fixed queue types (line 24). -/
def queue_types : List String :=
  ["RANKED_SOLO_5x5", "RANKED_FLEX_SR", "RANKED_TFT_DOUBLE_UP"]

/-- Display names of the queue types (line 25). -/
def queue_types_names : List (String × String) :=
  [("RANKED_SOLO_5x5", "Ranked Solo/Duo"), ("RANKED_FLEX_SR", "Ranked Flex"),
   ("RANKED_TFT_DOUBLE_UP", "TFT Double Up")]

/-- The fixed tier ordering (lines 309-310). -/
def tier : List String :=
  ["UNRANKED", "IRON", "BRONZE", "SILVER", "GOLD", "PLATINUM", "DIAMOND",
   "MASTER", "GRANDMASTER", "CHALLENGER"]

/-- The fixed division ordering (line 311). -/
def rank : List String := ["IV", "III", "II", "I"]

/-- The score expression of lines 328-330:
`tier.index(t) * 100000 + rank.index(r) * 10000 + leaguePoints`. -/
def scoreOf (ti ri : Nat) (lp : Int) : Int :=
  (ti : Int) * 100000 + (ri : Int) * 10000 + lp

/-- One tuple appended to `playings` (lines 335-345). -/
structure ScoredRow : Type where
  name : String
  queue : String
  points : Int
  text : String
  wins : Int
  losses : Int
deriving Repr, DecidableEq

/-- `nameDictByKeyValue(info, key="queueType")` (lines 361-377): the dict
comprehension `{d["queueType"]: d for d in putin}`; a repeated key keeps
its first position with the later value, which is what `dictSet` does. -/
def nameDictByKeyValue (putin : List LeagueEntry) : List (String × LeagueEntry) :=
  putin.foldl (fun d e => dictSet d e.queueType e) []

/-- Lines 320-322: add an empty dict for every fixed queue type that the
fetched entries do not cover.  `none` is the empty dict `{}`. -/
def fillQueues (d : List (String × Option LeagueEntry)) :
    List (String × Option LeagueEntry) :=
  queue_types.foldl
    (fun d t => if d.any (fun kv => kv.1 == t) then d else d ++ [(t, none)]) d

/-- The `try` block of lines 327-345 for one non-empty queue entry.
`tier.index`/`rank.index` raise `ValueError` when the value is absent
(modelled by `findFirstIdx … = none`); the `except ValueError` handler
at lines 331-333 then evaluates `players[player]["info"][queue]`, which
indexes a *list* with a *string* key and raises `TypeError`.  Afterwards
line 336 reads `players[player]["data"]["name"]`, raising `KeyError`
when the `"data"` key is absent. -/
def rankedRow (e : Entry) (q : LeagueEntry) : Except PyErr ScoredRow :=
  match findFirstIdx (fun s => s == q.tier) tier,
        findFirstIdx (fun s => s == q.rank) rank with
  | some ti, some ri =>
    match e.data with
    | none => .error .keyError
    | some d =>
      .ok ⟨d.name, q.queueType, scoreOf ti ri q.leaguePoints,
           q.tier ++ " " ++ q.rank ++ " " ++ toString q.leaguePoints ++ " LP",
           q.wins, q.losses⟩
  | _, _ => .error .typeError

/-- The `for queue in sub_queues` loop (lines 325-356) for one player. -/
def queueRows (show_unrankeds : Bool) (e : Entry) :
    List (String × Option LeagueEntry) → Except PyErr (List ScoredRow)
  | [] => .ok []
  | (queue, oq) :: rest =>
    match oq with
    | some q =>
      match rankedRow e q with
      | .error err => .error err
      | .ok row =>
        match queueRows show_unrankeds e rest with
        | .error err => .error err
        | .ok rs => .ok (row :: rs)
    | none =>
      if show_unrankeds then
        match e.data with
        | none => .error .keyError
        | some d =>
          match queueRows show_unrankeds e rest with
          | .error err => .error err
          | .ok rs => .ok (⟨d.name, queue, 0, "Unranked", 0, 0⟩ :: rs)
      else queueRows show_unrankeds e rest

/-- Lines 317-323: build `sub_queues` for one player.  When the stored
`"info"` value is the failure marker `False` (see line 203), iterating
over it in `nameDictByKeyValue` raises `TypeError`. -/
def playerQueues (e : Entry) : Except PyErr (List (String × Option LeagueEntry)) :=
  match e.info with
  | none => .ok (fillQueues [])
  | some .fail => .error .typeError
  | some (.ok entries) =>
    .ok (fillQueues ((nameDictByKeyValue entries).map (fun kv => (kv.1, some kv.2))))

/-- The `for player in players` loop of lines 314-356, collecting
`playings` in order; the `"config"` pseudo-entry is skipped (line 315). -/
def collectRows (show_unrankeds : Bool) :
    List (String × Entry) → Except PyErr (List ScoredRow)
  | [] => .ok []
  | (name, e) :: rest =>
    if name = "config" then collectRows show_unrankeds rest
    else
      match playerQueues e with
      | .error err => .error err
      | .ok sq =>
        match queueRows show_unrankeds e sq with
        | .error err => .error err
        | .ok rs =>
          match collectRows show_unrankeds rest with
          | .error err => .error err
          | .ok more => .ok (rs ++ more)

/-- Stable insertion for the descending sort by `points`. -/
def insertDesc (x : ScoredRow) : List ScoredRow → List ScoredRow
  | [] => [x]
  | y :: ys => if x.points < y.points then y :: insertDesc x ys else x :: y :: ys

/-- `sorted(playings, key=lambda x: x[2], reverse=True)` (line 358):
Python's sort is stable, and `reverse=True` keeps equal-key elements in
their original order; this insertion sort computes exactly that
permutation. -/
def sortDesc : List ScoredRow → List ScoredRow
  | [] => []
  | x :: xs => insertDesc x (sortDesc xs)

/-- `sortByTier(players, show_unrankeds)` (lines 306-358). -/
def sortByTier (players : List (String × Entry)) (show_unrankeds : Bool) :
    Except PyErr (List ScoredRow) :=
  match collectRows show_unrankeds players with
  | .error err => .error err
  | .ok playings => .ok (sortDesc playings)

/-! ### Persistence: `save_to_file` (lines 159-169) and `load_from_file`
(lines 171-186) -/

/-- The config block built at lines 163-168 from the current fields. -/
def configBlockOf (st : TiaxState) : ConfigBlock :=
  { last_ranks := st.last_ranks
    show_unrankeds := st.show_unranked_players
    send_updates := st.send_updates
    update_interval := st.update_interval
    updates_channel := st.updates_channel }

/-- The fresh dict `save_to_file` stores under the `"config"` key. -/
def configEntry (st : TiaxState) : Entry :=
  { data := none, info := none, conf := some (configBlockOf st) }

/-- `save_to_file` (lines 159-169).  `dump = self.summ_data` aliases the
roster dict, and `dump["config"] = {...}` therefore inserts the config
block into the in-memory roster itself; the function returns the new
state together with the file content it writes, and the two share the
same roster value. -/
def save_to_file (st : TiaxState) : TiaxState × List (String × Entry) :=
  let dump := dictSet st.summ_data "config" (configEntry st)
  ({ st with summ_data := dump }, dump)

/-- `load_from_file` (lines 171-186).  `none` means the state file does
not exist (line 173: return unchanged); otherwise the argument is the
parsed dict.  An empty dict fails the `if data:` test and changes
nothing.  When the `"config"` key is present its five fields are read
(raising `KeyError`, modelled as `.error`, when the value is not a
config block) and the roster becomes the dict with `"config"` popped. -/
def load_from_file (st : TiaxState) :
    Option (List (String × Entry)) → Except PyErr TiaxState
  | none => .ok st
  | some data =>
    if data.isEmpty then .ok st
    else
      match dictGet? data "config" with
      | some ce =>
        match ce.conf with
        | none => .error .keyError
        | some conf =>
          .ok { st with
                show_unranked_players := conf.show_unrankeds
                last_ranks := conf.last_ranks
                send_updates := conf.send_updates
                updates_channel := conf.updates_channel
                update_interval := conf.update_interval
                summ_data := dictPop data "config" }
      | none => .ok { st with summ_data := data }

/-! ### The refresh cycle `getSummoners` (lines 188-217)

The two remote calls are oracles: `bn` is `_byName` (resolution by
display name) and `bs` is `_bySummoner` (ranking entries by the `id`
field of the profile stored just before, line 131).  The Discord
delivery block (lines 210-215) reads but does not change any state in
the model's scope and is omitted. -/

/-- The loop body of lines 195-206, iterated over the pre-computed key
list.  On successful resolution the profile is stored (line 200) and the
ranking result is stored *unconditionally* (line 203), even when it is
the failure marker; on failed resolution the name goes to `errs`. -/
def runNames (bn : String → Fetch SummData) (bs : String → Fetch (List LeagueEntry)) :
    List String → List (String × Entry) → List String →
    List (String × Entry) × List String
  | [], sd, errs => (sd, errs)
  | name :: rest, sd, errs =>
    match bn name with
    | .fail => runNames bn bs rest sd (errs ++ [name])
    | .ok d =>
      runNames bn bs rest
        (updateEntry (updateEntry sd name (fun e => { e with data := some d }))
          name (fun e => { e with info := some (bs d.id) }))
        errs

/-- Lines 207-208: pop every failed name from the roster. -/
def popAll : List String → List (String × Entry) → List (String × Entry)
  | [], sd => sd
  | n :: rest, sd => popAll rest (dictPop sd n)

/-- The net effect of one loop iteration on the entry of name `k`:
unchanged when resolution fails, otherwise profile and ranking result
stored (used to state the characterization of `runNames`). -/
def updOf (bn : String → Fetch SummData) (bs : String → Fetch (List LeagueEntry))
    (k : String) (e : Entry) : Entry :=
  match bn k with
  | .fail => e
  | .ok d => { e with data := some d, info := some (bs d.id) }

/-- Whether an aggregation run succeeded (no exception escaped). -/
def isOkB : Except PyErr (List ScoredRow) → Bool
  | .ok _ => true
  | .error _ => false

/-- `getSummoners` (lines 188-217): returns the new state, the persisted
file content, and the `(len(errs) < 1, errs)` pair of line 217. -/
def getSummoners (bn : String → Fetch SummData)
    (bs : String → Fetch (List LeagueEntry)) (st : TiaxState) :
    TiaxState × List (String × Entry) × Bool × List String :=
  let r := runNames bn bs (st.summ_data.map Prod.fst) st.summ_data []
  let sd2 := popAll r.2 r.1
  let saved := save_to_file { st with summ_data := sd2 }
  (saved.1, saved.2, decide (r.2.length < 1), r.2)

/-! ### `generateLeaderboardEmbed` (lines 240-274) -/

/-- Rows filtered to one queue type with `str(li + 1)` inserted at the
front (lines 251-255). -/
def numberRows : List ScoredRow → Nat → List TableRow
  | [], _ => []
  | r :: rs, i => ⟨i + 1, r.name, r.text, r.wins, r.losses⟩ :: numberRows rs (i + 1)

/-- `to_table` for one queue type (lines 251-255). -/
def toTable (good_data : List ScoredRow) (gamemode : String) : List TableRow :=
  numberRows (good_data.filter (fun r => r.queue == gamemode)) 0

/-- A `ranking` row before any annotation: the copy of a `to_table` row
made at line 257, with the position cell back in string form. -/
def toDisplay (t : TableRow) : DisplayRow :=
  ⟨toString t.spot, t.name, t.rang, t.wins, t.losses⟩

/-- The movement text of lines 262-267: `"▲{li - yi} "` when the new
position number is smaller than the stored one, `"▼{yi - li} "` when it
is larger (the magnitudes use the loop indices, the comparisons the
stored position cells). -/
def movementText (tSpot lSpot : Nat) (li yi : Nat) : String :=
  (if tSpot < lSpot then "▲" ++ toString ((li : Int) - (yi : Int)) ++ " " else "")
    ++ (if tSpot > lSpot then "▼" ++ toString ((yi : Int) - (li : Int)) ++ " " else "")

/-- The row written at line 268: `ranking[yi][0] = text + f"{yi}"` (note
the 0-based `yi`, not the stored 1-based cell). -/
def annRow (t : TableRow) (lSpot li yi : Nat) : DisplayRow :=
  ⟨movementText t.spot lSpot li yi ++ toString yi, t.name, t.rang, t.wins, t.losses⟩

/-- The nested annotation loop of lines 260-269: for each stored row
(outer index `li`), find the first new row with the same name (inner
index `yi`, `break` after the match) and overwrite `ranking[yi][0]`. -/
def annotateFrom (tt : List TableRow) : Nat → List TableRow → List DisplayRow →
    List DisplayRow
  | _, [], r => r
  | li, lRow :: rest, r =>
    annotateFrom tt (li + 1) rest
      (match findFirstIdx (fun u => u.name == lRow.name) tt with
       | none => r
       | some yi =>
         match getIdx? tt yi with
         | none => r
         | some t => r.set yi (annRow t lRow.spot li yi))

/-- `generateLeaderboardEmbed` (lines 240-274).  `gamemodes = none` is
the default `["RANKED_SOLO_5x5"]`; the `for gamemode in gamemodes` loop
returns inside its first iteration (line 274), so only the first
requested queue type is rendered and only its `last_ranks` entry is
overwritten (line 272, executed for `modcall` renders too); an empty
list falls through and returns `None`.  The embed title (line 249)
indexes `queue_types_names` and raises `KeyError` for an unknown queue
type.  The returned value is the annotated `ranking` table. -/
def generateLeaderboardEmbed (st : TiaxState) (gamemodes : Option (List String))
    (modcall : Bool) : Except PyErr (Option (List DisplayRow) × TiaxState) :=
  let gms := match gamemodes with
    | none => ["RANKED_SOLO_5x5"]
    | some g => g
  match sortByTier st.summ_data st.show_unranked_players with
  | .error err => .error err
  | .ok good_data =>
    match gms with
    | [] => .ok (none, st)
    | gamemode :: _ =>
      match dictGet? queue_types_names gamemode with
      | none => .error .keyError
      | some _ =>
        let tt := toTable good_data gamemode
        let ranking :=
          if modcall then tt.map toDisplay
          else
            match dictGet? st.last_ranks gamemode with
            | none => tt.map toDisplay
            | some last => annotateFrom tt 0 last (tt.map toDisplay)
        .ok (some ranking,
             { st with last_ranks := dictSet st.last_ranks gamemode tt })

/-! ### Python attribute semantics for `Tiax.summ_data` (lines 96-113)

`summ_data: dict = {}` at line 99 is a *class* attribute: a single dict
object shared by every instance until an instance assigns its own
(`self.summ_data = data` at line 186, reached only when a state file
exists, parses, and is non-empty).  Reading `self.summ_data` falls back
to the class attribute when the instance has none; `self.summ_data[k] = v`
mutates whichever dict the read resolves to.  This is modelled with an
explicit heap of dict objects: `TiaxState` above is the per-logical-
session view, adequate for the single-session claims; the model below
captures which dict object each session's reads and writes hit. -/

/-- One `Tiax` instance's own attribute dict, restricted to the
reference it may hold for `summ_data` (absent until line 186 runs). -/
structure TiaxObj : Type where
  guild : String
  summDataRef : Option Nat
deriving Repr, DecidableEq

/-- The process heap of roster dict objects plus the class attribute
`Tiax.summ_data` (the reference created when the class body ran). -/
structure Proc : Type where
  heap : List (List (String × Entry))
  classSummRef : Nat
deriving Repr, DecidableEq

/-- Process start: the class body has allocated the one shared empty
dict for `Tiax.summ_data`. -/
def procInit : Proc := ⟨[[]], 0⟩

/-- `Tiax.__init__` + `load_from_file` (lines 115-124, 171-186), with the
parsed file content as argument (`none`: no file, line 173).  Only when
line 186 executes does the instance get its own roster dict (a fresh
heap object); a malformed `"config"` value raises before line 186 and is
caught at line 119, leaving the instance without its own dict. -/
def mkTiax (p : Proc) (guild : String) (file : Option (List (String × Entry))) :
    Proc × TiaxObj :=
  match file with
  | none => (p, ⟨guild, none⟩)
  | some data =>
    if data.isEmpty then (p, ⟨guild, none⟩)
    else
      match dictGet? data "config" with
      | some ce =>
        match ce.conf with
        | none => (p, ⟨guild, none⟩)
        | some _ =>
          ({ p with heap := p.heap ++ [dictPop data "config"] },
           ⟨guild, some p.heap.length⟩)
      | none => ({ p with heap := p.heap ++ [data] }, ⟨guild, some p.heap.length⟩)

/-- Attribute lookup for `self.summ_data`: the instance's own dict if it
ever assigned one, else the class dict. -/
def resolveSumm (p : Proc) (o : TiaxObj) : Nat :=
  match o.summDataRef with
  | none => p.classSummRef
  | some r => r

/-- The roster the session observes. -/
def summDataOf (p : Proc) (o : TiaxObj) : List (String × Entry) :=
  p.heap.getD (resolveSumm p o) []

/-- The `add_player` command body (line 429):
`summ_data[player_name] = {}` — an in-place mutation of whichever dict
object `self.summ_data` resolves to. -/
def add_player (p : Proc) (o : TiaxObj) (nm : String) : Proc :=
  { p with
    heap := p.heap.set (resolveSumm p o)
      (dictSet (summDataOf p o) nm ⟨none, none, none⟩) }

/-! ## Lemmas about the dict operations -/

theorem dictGet?_dictSet_self (d : List (String × α)) (k : String) (v : α) :
    dictGet? (dictSet d k v) k = some v := by
  induction d with
  | nil => simp [dictSet, dictGet?]
  | cons kv rest ih =>
    obtain ⟨k', v'⟩ := kv
    by_cases h : k' = k <;> simp [dictSet, dictGet?, h, ih]

theorem dictGet?_dictSet_other (d : List (String × α)) (k k' : String) (v : α)
    (h : k' ≠ k) : dictGet? (dictSet d k v) k' = dictGet? d k' := by
  induction d with
  | nil => simp [dictSet, dictGet?, Ne.symm h]
  | cons kv rest ih =>
    obtain ⟨k₀, v₀⟩ := kv
    by_cases h0 : k₀ = k
    · subst h0
      simp [dictSet, dictGet?, Ne.symm h, h]
    · by_cases h1 : k₀ = k' <;> simp [dictSet, dictGet?, h0, h1, h, ih]

theorem dictGet?_dictPop_self (d : List (String × α)) (k : String)
    (hd : (d.map Prod.fst).Nodup) : dictGet? (dictPop d k) k = none := by
  induction d with
  | nil => simp [dictPop, dictGet?]
  | cons kv rest ih =>
    obtain ⟨k₀, v₀⟩ := kv
    simp only [List.map_cons, List.nodup_cons] at hd
    by_cases h0 : k₀ = k
    · subst h0
      simp only [dictPop, if_pos rfl]
      -- `k₀` does not occur among the remaining keys
      clear ih
      induction rest with
      | nil => simp [dictGet?]
      | cons kv' rest' ih' =>
        obtain ⟨k₁, v₁⟩ := kv'
        simp only [List.map_cons, List.mem_cons, List.nodup_cons] at hd
        have hne : k₁ ≠ k₀ := fun h => hd.1 (Or.inl h.symm)
        simp only [dictGet?, if_neg hne]
        exact ih' ⟨fun h => hd.1 (Or.inr h), hd.2.2⟩
    · simp only [dictPop, if_neg h0, dictGet?, if_neg h0]
      exact ih hd.2

theorem dictGet?_dictPop_other (d : List (String × α)) (k k' : String)
    (h : k' ≠ k) : dictGet? (dictPop d k) k' = dictGet? d k' := by
  induction d with
  | nil => simp [dictPop]
  | cons kv rest ih =>
    obtain ⟨k₀, v₀⟩ := kv
    by_cases h0 : k₀ = k
    · subst h0
      simp [dictPop, dictGet?, Ne.symm h, h]
    · by_cases h1 : k₀ = k' <;> simp [dictPop, dictGet?, h0, h1, h, ih]

theorem dictPop_dictSet (d : List (String × α)) (k : String) (v : α) :
    dictPop (dictSet d k v) k = dictPop d k := by
  induction d with
  | nil => simp [dictSet, dictPop]
  | cons kv rest ih =>
    obtain ⟨k₀, v₀⟩ := kv
    by_cases h0 : k₀ = k <;> simp [dictSet, dictPop, h0, ih]

theorem dictPop_of_dictGet?_none (d : List (String × α)) (k : String)
    (h : dictGet? d k = none) : dictPop d k = d := by
  induction d with
  | nil => simp [dictPop]
  | cons kv rest ih =>
    obtain ⟨k₀, v₀⟩ := kv
    by_cases h0 : k₀ = k
    · simp [dictGet?, h0] at h
    · simp only [dictGet?, if_neg h0] at h
      simp [dictPop, h0, ih h]

theorem dictGet?_updateEntry_self (d : List (String × α)) (k : String) (f : α → α) :
    dictGet? (updateEntry d k f) k = (dictGet? d k).map f := by
  induction d with
  | nil => simp [updateEntry, dictGet?]
  | cons kv rest ih =>
    obtain ⟨k₀, v₀⟩ := kv
    by_cases h0 : k₀ = k <;> simp [updateEntry, dictGet?, h0, ih]

theorem dictGet?_updateEntry_other (d : List (String × α)) (k k' : String)
    (f : α → α) (h : k' ≠ k) :
    dictGet? (updateEntry d k f) k' = dictGet? d k' := by
  induction d with
  | nil => simp [updateEntry]
  | cons kv rest ih =>
    obtain ⟨k₀, v₀⟩ := kv
    by_cases h0 : k₀ = k
    · subst h0
      simp [updateEntry, dictGet?, Ne.symm h, h]
    · by_cases h1 : k₀ = k' <;> simp [updateEntry, dictGet?, h0, h1, h, ih]

theorem mem_keys_of_dictGet?_eq_some (d : List (String × α)) (k : String) (v : α)
    (h : dictGet? d k = some v) : k ∈ d.map Prod.fst := by
  induction d with
  | nil => simp [dictGet?] at h
  | cons kv rest ih =>
    obtain ⟨k₀, v₀⟩ := kv
    by_cases h0 : k₀ = k
    · simp [h0]
    · simp only [dictGet?, if_neg h0] at h
      simp [ih h]

theorem dictSet_ne_nil (d : List (String × α)) (k : String) (v : α) :
    (dictSet d k v).isEmpty = false := by
  cases d with
  | nil => simp [dictSet]
  | cons kv rest =>
    obtain ⟨k₀, v₀⟩ := kv
    by_cases h0 : k₀ = k <;> simp [dictSet, h0]

/-! ## Lemmas about `findFirstIdx` -/

theorem findFirstIdx_eq_none_iff {γ : Type} (p : γ → Bool) (l : List γ) :
    findFirstIdx p l = none ↔ ∀ a ∈ l, p a = false := by
  induction l with
  | nil => simp [findFirstIdx]
  | cons a l ih =>
    by_cases h : p a
    · simp [findFirstIdx, h]
    · simp only [findFirstIdx, if_neg h, Option.map_eq_none', ih,
        List.mem_cons]
      constructor
      · rintro hall b (rfl | hb)
        · exact Bool.eq_false_iff.mpr h
        · exact hall b hb
      · intro hall b hb
        exact hall b (Or.inr hb)

theorem findFirstIdx_eq_some {γ : Type} (p : γ → Bool) (l : List γ) (i : Nat)
    (h : findFirstIdx p l = some i) : ∃ a, getIdx? l i = some a ∧ p a = true := by
  induction l generalizing i with
  | nil => simp [findFirstIdx] at h
  | cons a l ih =>
    by_cases hp : p a
    · simp only [findFirstIdx, if_pos hp, Option.some.injEq] at h
      subst h
      exact ⟨a, rfl, hp⟩
    · simp only [findFirstIdx, if_neg hp] at h
      cases hrec : findFirstIdx p l with
      | none => rw [hrec] at h; simp at h
      | some j =>
        rw [hrec] at h
        simp only [Option.map_some', Option.some.injEq] at h
        subst h
        obtain ⟨b, hb, hpb⟩ := ih j hrec
        exact ⟨b, hb, hpb⟩

theorem findFirstIdx_of_getIdx? {γ : Type} (p : γ → Bool) (l : List γ) (i : Nat)
    (a : γ) (hget : getIdx? l i = some a) (hp : p a = true)
    (hbefore : ∀ j b, j < i → getIdx? l j = some b → p b = false) :
    findFirstIdx p l = some i := by
  induction l generalizing i with
  | nil => simp [getIdx?] at hget
  | cons c l ih =>
    cases i with
    | zero =>
      simp only [getIdx?] at hget
      cases hget
      simp [findFirstIdx, hp]
    | succ i =>
      have hc : p c = false := hbefore 0 c (Nat.succ_pos i) rfl
      simp only [getIdx?] at hget
      have := ih i hget (fun j b hj hb => hbefore (j + 1) b (Nat.succ_lt_succ hj) hb)
      simp [findFirstIdx, hc, this]

/-! ## Lemmas about the refresh cycle -/

theorem keys_updateEntry (d : List (String × α)) (k : String) (f : α → α) :
    (updateEntry d k f).map Prod.fst = d.map Prod.fst := by
  induction d with
  | nil => simp [updateEntry]
  | cons kv rest ih =>
    obtain ⟨k₀, v₀⟩ := kv
    by_cases h0 : k₀ = k <;> simp [updateEntry, h0, ih]

theorem keys_dictPop_sublist (d : List (String × α)) (k : String) :
    ((dictPop d k).map Prod.fst).Sublist (d.map Prod.fst) := by
  induction d with
  | nil => simp [dictPop]
  | cons kv rest ih =>
    obtain ⟨k₀, v₀⟩ := kv
    by_cases h0 : k₀ = k
    · simp only [dictPop, if_pos h0, List.map_cons]
      exact List.Sublist.cons _ (List.Sublist.refl _)
    · simp only [dictPop, if_neg h0, List.map_cons]
      exact ih.cons₂ k₀

theorem runNames_errs (bn : String → Fetch SummData)
    (bs : String → Fetch (List LeagueEntry)) (ns : List String)
    (sd : List (String × Entry)) (errs : List String) :
    (runNames bn bs ns sd errs).2
      = errs ++ ns.filter (fun n => isFail (bn n)) := by
  induction ns generalizing sd errs with
  | nil => simp [runNames]
  | cons n rest ih =>
    cases hbn : bn n with
    | fail =>
      simp [runNames, hbn, ih, List.filter_cons, isFail]
    | ok d =>
      simp [runNames, hbn, ih, List.filter_cons, isFail]

theorem keys_runNames (bn : String → Fetch SummData)
    (bs : String → Fetch (List LeagueEntry)) (ns : List String)
    (sd : List (String × Entry)) (errs : List String) :
    (runNames bn bs ns sd errs).1.map Prod.fst = sd.map Prod.fst := by
  induction ns generalizing sd errs with
  | nil => simp [runNames]
  | cons n rest ih =>
    cases hbn : bn n with
    | fail => simp [runNames, hbn, ih]
    | ok d => simp [runNames, hbn, ih, keys_updateEntry]

theorem runNames_get (bn : String → Fetch SummData)
    (bs : String → Fetch (List LeagueEntry)) (ns : List String)
    (sd : List (String × Entry)) (errs : List String) (k : String) :
    dictGet? (runNames bn bs ns sd errs).1 k =
      if k ∈ ns then (dictGet? sd k).map (updOf bn bs k) else dictGet? sd k := by
  induction ns generalizing sd errs with
  | nil => simp [runNames]
  | cons n rest ih =>
    by_cases hk : k = n
    · subst hk
      cases hbn : bn k with
      | fail =>
        have hupd : ∀ e : Entry, updOf bn bs k e = e := fun e => by
          simp [updOf, hbn]
        have hmap : (dictGet? sd k).map (updOf bn bs k) = dictGet? sd k := by
          cases dictGet? sd k <;> simp [hupd]
        simp only [runNames, hbn, ih, List.mem_cons, true_or, if_pos]
        by_cases hmem : k ∈ rest <;> simp [hmem, hmap]
      | ok d =>
        have hcomp : ∀ e : Entry,
            updOf bn bs k ({ { e with data := some d } with
              info := some (bs d.id) }) =
            { e with data := some d, info := some (bs d.id) } := fun e => by
          simp [updOf, hbn]
        have hsd' : dictGet?
            (updateEntry (updateEntry sd k (fun e => { e with data := some d }))
              k (fun e => { e with info := some (bs d.id) })) k
            = (dictGet? sd k).map
                (fun e => { e with data := some d, info := some (bs d.id) }) := by
          rw [dictGet?_updateEntry_self, dictGet?_updateEntry_self,
            Option.map_map]
          rfl
        have hupd : updOf bn bs k = fun e : Entry =>
            { e with data := some d, info := some (bs d.id) } := by
          funext e
          simp [updOf, hbn]
        simp only [runNames, hbn, ih, List.mem_cons, true_or, if_pos]
        by_cases hmem : k ∈ rest
        · rw [if_pos hmem, hsd', Option.map_map, hupd]
          cases dictGet? sd k <;> simp
        · rw [if_neg hmem, hsd', hupd]
    · have hmem : (k ∈ n :: rest) ↔ k ∈ rest := by simp [hk]
      cases hbn : bn n with
      | fail =>
        simp only [runNames, hbn, ih, hmem]
      | ok d =>
        simp only [runNames, hbn, ih, hmem]
        rw [dictGet?_updateEntry_other _ _ _ _ hk,
          dictGet?_updateEntry_other _ _ _ _ hk]

theorem popAll_get (es : List String) (sd : List (String × Entry)) (k : String)
    (hnd : (sd.map Prod.fst).Nodup) :
    dictGet? (popAll es sd) k = if k ∈ es then none else dictGet? sd k := by
  induction es generalizing sd with
  | nil => simp [popAll]
  | cons n rest ih =>
    have hnd' : ((dictPop sd n).map Prod.fst).Nodup :=
      List.Nodup.sublist (keys_dictPop_sublist sd n) hnd
    simp only [popAll]
    rw [ih _ hnd']
    by_cases hk : k = n
    · subst hk
      by_cases hmem : k ∈ rest <;>
        simp [hmem, dictGet?_dictPop_self sd k hnd]
    · by_cases hmem : k ∈ rest <;>
        simp [hmem, hk, dictGet?_dictPop_other sd n k hk]

/-- C1: a refresh cycle records exactly the names whose resolution
failed, removes them from the roster, stores the fetched data for every
resolved identity, persists unconditionally (the returned file content
*is* the final roster, including the fresh `"config"` block carrying the
unchanged configuration fields), and returns `(allSucceeded, errs)` with
`allSucceeded` true exactly when the failure list is empty. -/
theorem C1_getSummoners_refresh_contract (bn : String → Fetch SummData)
    (bs : String → Fetch (List LeagueEntry)) (st : TiaxState)
    (hnd : (st.summ_data.map Prod.fst).Nodup) :
    (getSummoners bn bs st).2.2.2
        = (st.summ_data.map Prod.fst).filter (fun n => isFail (bn n))
    ∧ (∀ nm, nm ≠ "config" → nm ∈ (getSummoners bn bs st).2.2.2 →
        dictGet? (getSummoners bn bs st).1.summ_data nm = none)
    ∧ (∀ nm (e : Entry) (d : SummData), nm ≠ "config" →
        dictGet? st.summ_data nm = some e → bn nm = .ok d →
        dictGet? (getSummoners bn bs st).1.summ_data nm
          = some { e with data := some d, info := some (bs d.id) })
    ∧ (getSummoners bn bs st).2.1 = (getSummoners bn bs st).1.summ_data
    ∧ dictGet? (getSummoners bn bs st).1.summ_data "config"
        = some (configEntry st)
    ∧ ((getSummoners bn bs st).2.2.1 = true ↔ (getSummoners bn bs st).2.2.2 = []) := by
  have herrs : (getSummoners bn bs st).2.2.2
      = (st.summ_data.map Prod.fst).filter (fun n => isFail (bn n)) :=
    runNames_errs bn bs (st.summ_data.map Prod.fst) st.summ_data []
  have hnd1 : ((runNames bn bs (st.summ_data.map Prod.fst) st.summ_data []).1.map
      Prod.fst).Nodup := by
    rw [keys_runNames]
    exact hnd
  have hE : (getSummoners bn bs st).2.2.2
      = (runNames bn bs (st.summ_data.map Prod.fst) st.summ_data []).2 := rfl
  refine ⟨herrs, ?_, ?_, rfl, ?_, ?_⟩
  · intro nm hcfg hmem
    rw [hE] at hmem
    show dictGet? (dictSet (popAll _ _) "config" _) nm = none
    rw [dictGet?_dictSet_other _ _ _ _ hcfg, popAll_get _ _ _ hnd1, if_pos hmem]
  · intro nm e d hcfg hget hbn
    have hmemns : nm ∈ st.summ_data.map Prod.fst :=
      mem_keys_of_dictGet?_eq_some st.summ_data nm e hget
    have hnotmem : nm ∉ (runNames bn bs (st.summ_data.map Prod.fst)
        st.summ_data []).2 := by
      rw [← hE, herrs]
      intro hmem
      have := (List.mem_filter.mp hmem).2
      rw [hbn] at this
      simp [isFail] at this
    show dictGet? (dictSet (popAll _ _) "config" _) nm
        = some { e with data := some d, info := some (bs d.id) }
    rw [dictGet?_dictSet_other _ _ _ _ hcfg, popAll_get _ _ _ hnd1,
      if_neg hnotmem, runNames_get, if_pos hmemns, hget]
    simp [updOf, hbn]
  · show dictGet? (dictSet (popAll _ _) "config" _) "config" = _
    rw [dictGet?_dictSet_self]
    rfl
  · show (decide ((getSummoners bn bs st).2.2.2.length < 1) = true) ↔ _
    cases (getSummoners bn bs st).2.2.2 <;> simp

/-- Witness for C1: the spec's scenario — three identities, resolution
fails for exactly one of them. -/
theorem C1_refresh_witness :
    (getSummoners
        (fun n => if n = "B" then Fetch.fail else Fetch.ok ⟨"id-" ++ n, n⟩)
        (fun _ => Fetch.ok [])
        ⟨[("A", ⟨none, none, none⟩), ("B", ⟨none, none, none⟩),
          ("C", ⟨none, none, none⟩)], [], false, 3600, none, false⟩).2.2.2 = ["B"]
    ∧ dictGet? (getSummoners
        (fun n => if n = "B" then Fetch.fail else Fetch.ok ⟨"id-" ++ n, n⟩)
        (fun _ => Fetch.ok [])
        ⟨[("A", ⟨none, none, none⟩), ("B", ⟨none, none, none⟩),
          ("C", ⟨none, none, none⟩)], [], false, 3600, none, false⟩).1.summ_data "B"
        = none
    ∧ dictGet? (getSummoners
        (fun n => if n = "B" then Fetch.fail else Fetch.ok ⟨"id-" ++ n, n⟩)
        (fun _ => Fetch.ok [])
        ⟨[("A", ⟨none, none, none⟩), ("B", ⟨none, none, none⟩),
          ("C", ⟨none, none, none⟩)], [], false, 3600, none, false⟩).1.summ_data "A"
        = some ⟨some ⟨"id-A", "A"⟩, some (Fetch.ok []), none⟩ := by
  have h := C1_getSummoners_refresh_contract
    (fun n => if n = "B" then Fetch.fail else Fetch.ok ⟨"id-" ++ n, n⟩)
    (fun _ => Fetch.ok [])
    ⟨[("A", ⟨none, none, none⟩), ("B", ⟨none, none, none⟩),
      ("C", ⟨none, none, none⟩)], [], false, 3600, none, false⟩ (by decide)
  exact ⟨by decide, h.2.1 "B" (by decide) (by decide),
    h.2.2.1 "A" ⟨none, none, none⟩ ⟨"id-A", "A"⟩ (by decide) (by decide) (by decide)⟩

/-- C3: when resolution succeeds but the ranking fetch fails, the code
does *not* record the name and *overwrites* the cached `"info"` with the
failure marker `False` (line 203 has no success check); the cycle even
reports overall success. -/
theorem C3_ranking_fetch_failure_eval :
    (getSummoners (fun n => if n = "A" then Fetch.ok ⟨"idA2", "A"⟩ else Fetch.fail)
        (fun _ => Fetch.fail)
        ⟨[("A", ⟨some ⟨"idA", "A"⟩,
            some (.ok [⟨"RANKED_SOLO_5x5", "GOLD", "IV", 10, 1, 2⟩]), none⟩)],
          [], false, 3600, none, false⟩).2.2.2 = []
    ∧ dictGet? (getSummoners
        (fun n => if n = "A" then Fetch.ok ⟨"idA2", "A"⟩ else Fetch.fail)
        (fun _ => Fetch.fail)
        ⟨[("A", ⟨some ⟨"idA", "A"⟩,
            some (.ok [⟨"RANKED_SOLO_5x5", "GOLD", "IV", 10, 1, 2⟩]), none⟩)],
          [], false, 3600, none, false⟩).1.summ_data "A"
        = some ⟨some ⟨"idA2", "A"⟩, some Fetch.fail, none⟩
    ∧ (getSummoners (fun n => if n = "A" then Fetch.ok ⟨"idA2", "A"⟩ else Fetch.fail)
        (fun _ => Fetch.fail)
        ⟨[("A", ⟨some ⟨"idA", "A"⟩,
            some (.ok [⟨"RANKED_SOLO_5x5", "GOLD", "IV", 10, 1, 2⟩]), none⟩)],
          [], false, 3600, none, false⟩).2.2.1 = true := by
  exact ⟨rfl, by decide, rfl⟩

/-! ## Lemmas about the aggregation -/

theorem foldl_fill_from (ts : List String) (d : List (String × Option LeagueEntry)) :
    ∃ ext, ts.foldl
        (fun d t => if d.any (fun kv => kv.1 == t) then d else d ++ [(t, none)]) d
        = d ++ ext
      ∧ ∀ p ∈ ext, p.2 = (none : Option LeagueEntry) := by
  induction ts generalizing d with
  | nil => exact ⟨[], by simp, by simp⟩
  | cons t ts ih =>
    simp only [List.foldl]
    by_cases h : d.any (fun kv => kv.1 == t)
    · rw [if_pos h]
      exact ih d
    · rw [if_neg h]
      obtain ⟨ext, heq, hall⟩ := ih (d ++ [(t, none)])
      refine ⟨(t, none) :: ext, by simpa [List.append_assoc] using heq, ?_⟩
      rintro p hp
      rcases List.mem_cons.mp hp with rfl | hp'
      · rfl
      · exact hall p hp'

theorem fillQueues_shape (d : List (String × Option LeagueEntry)) :
    ∃ ext, fillQueues d = d ++ ext
      ∧ ∀ p ∈ ext, p.2 = (none : Option LeagueEntry) :=
  foldl_fill_from queue_types d

theorem queueRows_all_none (e : Entry) (l : List (String × Option LeagueEntry))
    (hall : ∀ p ∈ l, p.2 = (none : Option LeagueEntry)) :
    queueRows false e l = .ok [] := by
  induction l with
  | nil => rfl
  | cons p rest ih =>
    obtain ⟨qn, oq⟩ := p
    have hnone : oq = none := hall (qn, oq) (List.mem_cons_self _ _)
    subst hnone
    simp only [queueRows, Bool.false_eq_true, if_false]
    exact ih (fun p hp => hall p (List.mem_cons_of_mem _ hp))

/-- For a roster of one player with a single fetched entry, `sortByTier`
is the result of scoring that entry. -/
theorem sortByTier_single_entry (nm : String) (e : Entry) (q : LeagueEntry)
    (hnm : nm ≠ "config") (hinfo : e.info = some (.ok [q])) :
    sortByTier [(nm, e)] false =
      match rankedRow e q with
      | .error err => .error err
      | .ok row => .ok [row] := by
  obtain ⟨ext, heq, hall⟩ := fillQueues_shape [(q.queueType, some q)]
  have hpq : playerQueues e = .ok (fillQueues [(q.queueType, some q)]) := by
    unfold playerQueues
    rw [hinfo]
    rfl
  have hfill : fillQueues [(q.queueType, some q)] = (q.queueType, some q) :: ext := by
    rw [heq]
    rfl
  have hrest : queueRows false e ext = .ok [] := queueRows_all_none e ext hall
  have hq : queueRows false e ((q.queueType, some q) :: ext) =
      (match rankedRow e q with
      | Except.error err => Except.error err
      | Except.ok row => Except.ok [row]) := by
    simp only [queueRows, hrest]
  have hcoll : collectRows false [(nm, e)] =
      (match rankedRow e q with
      | Except.error err => Except.error err
      | Except.ok row => Except.ok [row]) := by
    simp only [collectRows, if_neg hnm, hpq, hfill, hq]
    cases rankedRow e q with
    | error err => rfl
    | ok row => simp [collectRows]
  show (match collectRows false [(nm, e)] with
    | Except.error err => (Except.error err : Except PyErr (List ScoredRow))
    | Except.ok playings => Except.ok (sortDesc playings)) = _
  rw [hcoll]
  cases rankedRow e q with
  | error err => rfl
  | ok row => rfl

/-- C2: for a recognized tier and division, the aggregator scores an
entry as `tierIndex * 100000 + divisionIndex * 10000 + points` against
the fixed orderings, and the score is strictly monotone: any higher tier
beats any division/points of a lower tier, and within a tier any higher
division beats any points of a lower division (points are `< 10000`,
the formula's carrying capacity; league points within a division are
0-100). -/
theorem C2_score_formula_and_monotone :
    (∀ (nm : String) (dta : SummData) (e : Entry) (q : LeagueEntry) (ti ri : Nat),
      nm ≠ "config" → e.data = some dta → e.info = some (.ok [q]) →
      findFirstIdx (fun s => s == q.tier) tier = some ti →
      findFirstIdx (fun s => s == q.rank) rank = some ri →
      sortByTier [(nm, e)] false
        = .ok [⟨dta.name, q.queueType, scoreOf ti ri q.leaguePoints,
            q.tier ++ " " ++ q.rank ++ " " ++ toString q.leaguePoints ++ " LP",
            q.wins, q.losses⟩])
    ∧ (∀ (t1 r1 t2 r2 : Nat) (p1 p2 : Int),
        t1 < 10 → t2 < 10 → r1 < 4 → r2 < 4 → 0 ≤ p1 → p1 < 10000 → 0 ≤ p2 →
        (t1 < t2 → scoreOf t1 r1 p1 < scoreOf t2 r2 p2)
        ∧ (t1 = t2 → r1 < r2 → scoreOf t1 r1 p1 < scoreOf t2 r2 p2)) := by
  constructor
  · intro nm dta e q ti ri hnm hdata hinfo hti hri
    rw [sortByTier_single_entry nm e q hnm hinfo]
    have hrr : rankedRow e q
        = .ok ⟨dta.name, q.queueType, scoreOf ti ri q.leaguePoints,
            q.tier ++ " " ++ q.rank ++ " " ++ toString q.leaguePoints ++ " LP",
            q.wins, q.losses⟩ := by
      unfold rankedRow
      rw [hti, hri, hdata]
    rw [hrr]
  · intro t1 r1 t2 r2 p1 p2 ht1 ht2 hr1 hr2 hp1 hp1' hp2
    unfold scoreOf
    constructor
    · intro hlt
      have : (t1 : Int) + 1 ≤ (t2 : Int) := by exact_mod_cast hlt
      have hr1' : (r1 : Int) ≤ 3 := by exact_mod_cast Nat.lt_succ_iff.mp hr1
      have hr2' : (0 : Int) ≤ (r2 : Int) := Int.natCast_nonneg r2
      nlinarith
    · intro heq hlt
      subst heq
      have : (r1 : Int) + 1 ≤ (r2 : Int) := by exact_mod_cast hlt
      nlinarith

/-- Witness for C2: `GOLD II 40` scores `420040`; cross-tier and
cross-division comparisons at the extremes. -/
theorem C2_score_witness :
    sortByTier [("P", ⟨some ⟨"pid", "P"⟩,
        some (.ok [⟨"RANKED_SOLO_5x5", "GOLD", "II", 40, 1, 2⟩]), none⟩)] false
      = .ok [⟨"P", "RANKED_SOLO_5x5", 420040, "GOLD II 40 LP", 1, 2⟩]
    ∧ scoreOf 3 3 9999 < scoreOf 4 0 0
    ∧ scoreOf 4 2 9999 < scoreOf 4 3 0 := by
  have h := C2_score_formula_and_monotone
  refine ⟨?_, ?_, ?_⟩
  · exact h.1 "P" ⟨"pid", "P"⟩
      ⟨some ⟨"pid", "P"⟩, some (.ok [⟨"RANKED_SOLO_5x5", "GOLD", "II", 40, 1, 2⟩]), none⟩
      ⟨"RANKED_SOLO_5x5", "GOLD", "II", 40, 1, 2⟩ 4 2
      (by decide) rfl rfl (by decide) (by decide)
  · exact (h.2 3 3 4 0 9999 0 (by decide) (by decide) (by decide) (by decide)
      (by decide) (by decide) (by decide)).1 (by decide)
  · exact (h.2 4 2 4 3 9999 0 (by decide) (by decide) (by decide) (by decide)
      (by decide) (by decide) (by decide)).2 rfl (by decide)

/-- C5 counterexample: a MASTER entry whose division value is not in the
fixed division ordering is *not* aggregated with division index 0
(which would give score `7 * 100000 + 50`): aggregation raises instead
of producing any row. -/
theorem C5_master_counterexample :
    sortByTier [("P", ⟨some ⟨"pid", "P"⟩,
        some (.ok [⟨"RANKED_SOLO_5x5", "MASTER", "NONE", 50, 1, 2⟩]), none⟩)] false
      = .error .typeError
    ∧ isOkB (sortByTier [("P", ⟨some ⟨"pid", "P"⟩,
        some (.ok [⟨"RANKED_SOLO_5x5", "MASTER", "NONE", 50, 1, 2⟩]), none⟩)] false)
      = false := ⟨rfl, rfl⟩

/-- C5 amended: a division lookup failure on a MASTER, GRANDMASTER or
CHALLENGER entry is treated like any other unrecognized value — the
`except ValueError` handler's own logging expression raises, so the
aggregation fails; no row with division index 0 is produced. -/
theorem C5_amended_division_failure_raises (nm : String) (e : Entry)
    (q : LeagueEntry)
    (hnm : nm ≠ "config")
    (ht : q.tier = "MASTER" ∨ q.tier = "GRANDMASTER" ∨ q.tier = "CHALLENGER")
    (hr : findFirstIdx (fun s => s == q.rank) rank = none)
    (hinfo : e.info = some (.ok [q])) :
    sortByTier [(nm, e)] false = .error .typeError := by
  rw [sortByTier_single_entry nm e q hnm hinfo]
  have hti : ∃ ti, findFirstIdx (fun s => s == q.tier) tier = some ti := by
    rcases ht with h | h | h <;> rw [h] <;> exact ⟨_, rfl⟩
  obtain ⟨ti, hti⟩ := hti
  have hrr : rankedRow e q = .error .typeError := by
    unfold rankedRow
    rw [hti, hr]
  rw [hrr]

/-- Witness for the amended C5. -/
theorem C5_amended_witness :
    sortByTier [("P", ⟨some ⟨"pid", "P"⟩,
        some (.ok [⟨"RANKED_SOLO_5x5", "GRANDMASTER", "NONE", 50, 1, 2⟩]), none⟩)] false
      = .error .typeError :=
  C5_amended_division_failure_raises "P"
    ⟨some ⟨"pid", "P"⟩,
      some (.ok [⟨"RANKED_SOLO_5x5", "GRANDMASTER", "NONE", 50, 1, 2⟩]), none⟩
    ⟨"RANKED_SOLO_5x5", "GRANDMASTER", "NONE", 50, 1, 2⟩
    (by decide) (Or.inr (Or.inl rfl)) rfl rfl

/-- C6: an entry whose tier is outside the fixed ordering does *not* get
skipped with a logged warning — the `except ValueError` handler at lines
331-333 evaluates `players[player]["info"][queue]`, indexing a list with
a string, and raises `TypeError`, aborting the whole aggregation. -/
theorem C6_unrecognized_tier_raises_eval :
    sortByTier [("P", ⟨some ⟨"pid", "P"⟩,
        some (.ok [⟨"RANKED_SOLO_5x5", "WOOD", "IV", 10, 1, 2⟩]), none⟩)] false
      = .error .typeError
    ∧ isOkB (sortByTier [("P", ⟨some ⟨"pid", "P"⟩,
        some (.ok [⟨"RANKED_SOLO_5x5", "WOOD", "IV", 10, 1, 2⟩]), none⟩)] false)
      = false := ⟨rfl, rfl⟩

/-- C9 (code bug): `summ_data` is a mutable *class* attribute; two
sessions constructed with no prior state file resolve it to the same
dict object, so `add_player` on one session's roster is visible in the
other session's roster. -/
theorem C9_class_attr_sharing_eval :
    summDataOf (mkTiax (mkTiax procInit "1" none).1 "2" none).1
        (mkTiax (mkTiax procInit "1" none).1 "2" none).2 = []
    ∧ summDataOf
        (add_player (mkTiax (mkTiax procInit "1" none).1 "2" none).1
          (mkTiax procInit "1" none).2 "Alice")
        (mkTiax (mkTiax procInit "1" none).1 "2" none).2
        = [("Alice", ⟨none, none, none⟩)]
    ∧ summDataOf
        (add_player (mkTiax (mkTiax procInit "1" none).1 "2" none).1
          (mkTiax procInit "1" none).2 "Alice")
        (mkTiax procInit "1" none).2
      = summDataOf
        (add_player (mkTiax (mkTiax procInit "1" none).1 "2" none).1
          (mkTiax procInit "1" none).2 "Alice")
        (mkTiax (mkTiax procInit "1" none).1 "2" none).2 := ⟨rfl, rfl, rfl⟩

/-- C8: saving a state and loading the produced file reproduces the
roster (exactly the player entries: the `"config"` pseudo-key is not a
roster member) and every configuration field; no per-identity data is
fabricated — the loaded entries are the saved ones verbatim. -/
theorem C8_save_load_roundtrip (st st₀ : TiaxState) :
    load_from_file st₀ (some ((save_to_file st).2))
      = .ok { summ_data := dictPop st.summ_data "config"
              last_ranks := st.last_ranks
              send_updates := st.send_updates
              update_interval := st.update_interval
              updates_channel := st.updates_channel
              show_unranked_players := st.show_unranked_players }
    ∧ (dictGet? st.summ_data "config" = none →
        dictPop st.summ_data "config" = st.summ_data) := by
  constructor
  · show load_from_file st₀
        (some (dictSet st.summ_data "config" (configEntry st))) = _
    simp only [load_from_file, dictSet_ne_nil, Bool.false_eq_true, if_false,
      dictGet?_dictSet_self, dictPop_dictSet]
    rfl
  · exact dictPop_of_dictGet?_none st.summ_data "config"

/-- Witness for C8: a three-identity roster with a non-default
configuration round-trips exactly. -/
theorem C8_roundtrip_witness :
    load_from_file ⟨[], [], false, 3600, none, false⟩
      (some ((save_to_file
        ⟨[("A", ⟨some ⟨"idA", "A"⟩, none, none⟩), ("B", ⟨none, none, none⟩),
          ("C", ⟨none, some Fetch.fail, none⟩)],
         [("RANKED_FLEX_SR", [⟨1, "A", "GOLD IV 10 LP", 1, 2⟩])],
         true, 1200, some "chan", true⟩).2))
      = .ok ⟨[("A", ⟨some ⟨"idA", "A"⟩, none, none⟩), ("B", ⟨none, none, none⟩),
          ("C", ⟨none, some Fetch.fail, none⟩)],
         [("RANKED_FLEX_SR", [⟨1, "A", "GOLD IV 10 LP", 1, 2⟩])],
         true, 1200, some "chan", true⟩ := by
  have h := C8_save_load_roundtrip
    ⟨[("A", ⟨some ⟨"idA", "A"⟩, none, none⟩), ("B", ⟨none, none, none⟩),
      ("C", ⟨none, some Fetch.fail, none⟩)],
     [("RANKED_FLEX_SR", [⟨1, "A", "GOLD IV 10 LP", 1, 2⟩])],
     true, 1200, some "chan", true⟩
    ⟨[], [], false, 3600, none, false⟩
  rw [h.1, h.2 (by decide)]

/-! ## Lemmas for the `"config"` pseudo-entry -/

theorem collectRows_dictSet_config (u : Bool) (d : List (String × Entry))
    (v : Entry) :
    collectRows u (dictSet d "config" v) = collectRows u (dictPop d "config") := by
  induction d with
  | nil => rfl
  | cons kv rest ih =>
    obtain ⟨k, e⟩ := kv
    by_cases hk : k = "config"
    · subst hk
      simp only [dictSet, if_pos rfl, dictPop]
      simp only [collectRows, if_pos rfl, if_true]
    · simp only [dictSet, if_neg hk, dictPop, if_neg hk]
      simp only [collectRows, if_neg hk]
      rw [ih]

theorem sortByTier_dictSet_config (u : Bool) (d : List (String × Entry))
    (v : Entry) :
    sortByTier (dictSet d "config" v) u = sortByTier (dictPop d "config") u := by
  unfold sortByTier
  rw [collectRows_dictSet_config]

/-- C10: `save_to_file` aliases the roster: the written file *is* the
in-memory roster after the call, which now carries the `"config"`
pseudo-entry; a later refresh cycle iterates over `"config"` like a
player name (so its failed resolution puts `"config"` in the failure
list), while `sortByTier` explicitly skips the `"config"` key
(aggregation over the saved roster equals aggregation over the roster
without it). -/
theorem C10_config_aliasing (st : TiaxState) :
    (save_to_file st).2 = ((save_to_file st).1).summ_data
    ∧ dictGet? ((save_to_file st).1).summ_data "config" = some (configEntry st)
    ∧ (∀ (bn : String → Fetch SummData) (bs : String → Fetch (List LeagueEntry)),
        isFail (bn "config") = true →
        "config" ∈ (getSummoners bn bs (save_to_file st).1).2.2.2)
    ∧ (∀ u, sortByTier ((save_to_file st).1).summ_data u
        = sortByTier (dictPop st.summ_data "config") u) := by
  refine ⟨rfl, dictGet?_dictSet_self _ _ _, ?_, ?_⟩
  · intro bn bs hfail
    have hE : (getSummoners bn bs (save_to_file st).1).2.2.2
        = ((save_to_file st).1.summ_data.map Prod.fst).filter
            (fun n => isFail (bn n)) :=
      runNames_errs bn bs _ _ []
    rw [hE]
    refine List.mem_filter.mpr ⟨?_, hfail⟩
    exact mem_keys_of_dictGet?_eq_some _ _ _ (dictGet?_dictSet_self _ _ _)
  · intro u
    show sortByTier (dictSet st.summ_data "config" (configEntry st)) u = _
    exact sortByTier_dictSet_config u st.summ_data (configEntry st)

/-- Witness for C10. -/
theorem C10_config_witness :
    dictGet? ((save_to_file
        ⟨[("A", ⟨none, none, none⟩)], [], false, 3600, none, false⟩).1).summ_data
        "config"
      = some (configEntry ⟨[("A", ⟨none, none, none⟩)], [], false, 3600, none, false⟩)
    ∧ "config" ∈ (getSummoners (fun _ => Fetch.fail) (fun _ => Fetch.fail)
        (save_to_file
          ⟨[("A", ⟨none, none, none⟩)], [], false, 3600, none, false⟩).1).2.2.2 := by
  have h := C10_config_aliasing ⟨[("A", ⟨none, none, none⟩)], [], false, 3600, none, false⟩
  exact ⟨h.2.1, h.2.2.1 (fun _ => Fetch.fail) (fun _ => Fetch.fail) rfl⟩

/-- C7 counterexample: a manual mode-switch re-render (`modcall = true`)
*does* overwrite the stored last ranks of the rendered queue type
(line 272 runs unconditionally): here they change from `[]` to the
freshly computed table. -/
theorem C7_modcall_counterexample :
    generateLeaderboardEmbed
      ⟨[("P", ⟨some ⟨"pid", "P"⟩,
          some (.ok [⟨"RANKED_SOLO_5x5", "GOLD", "IV", 10, 1, 2⟩]), none⟩)],
        [], false, 3600, none, false⟩
      (some ["RANKED_SOLO_5x5"]) true
      = .ok (some [⟨"1", "P", "GOLD IV 10 LP", 1, 2⟩],
          ⟨[("P", ⟨some ⟨"pid", "P"⟩,
              some (.ok [⟨"RANKED_SOLO_5x5", "GOLD", "IV", 10, 1, 2⟩]), none⟩)],
           [("RANKED_SOLO_5x5", [⟨1, "P", "GOLD IV 10 LP", 1, 2⟩])],
           false, 3600, none, false⟩)
    ∧ [("RANKED_SOLO_5x5", [(⟨1, "P", "GOLD IV 10 LP", 1, 2⟩ : TableRow)])]
        ≠ ([] : List (String × List TableRow)) := ⟨rfl, by decide⟩

/-- C7 amended: `modcall = true` suppresses delta annotation (the
returned table is the plain numbered one), but still overwrites the
stored last ranks of the rendered (first requested) queue type; other
queue types' stored ranks are unchanged. -/
theorem C7_modcall_suppresses_but_overwrites (st : TiaxState) (gm : String)
    (rest : List String) (good_data : List ScoredRow) (nmdisp : String)
    (hgm : dictGet? queue_types_names gm = some nmdisp)
    (hsort : sortByTier st.summ_data st.show_unranked_players = .ok good_data) :
    generateLeaderboardEmbed st (some (gm :: rest)) true
      = .ok (some ((toTable good_data gm).map toDisplay),
          { st with last_ranks := dictSet st.last_ranks gm (toTable good_data gm) })
    ∧ (∀ gm', gm' ≠ gm →
        dictGet? (dictSet st.last_ranks gm (toTable good_data gm)) gm'
          = dictGet? st.last_ranks gm') := by
  constructor
  · simp only [generateLeaderboardEmbed, hsort, hgm, if_true]
  · intro gm' hne
    exact dictGet?_dictSet_other _ _ _ _ hne

/-- Witness for the amended C7. -/
theorem C7_modcall_witness :
    generateLeaderboardEmbed
      ⟨[("P", ⟨some ⟨"pid", "P"⟩,
          some (.ok [⟨"RANKED_SOLO_5x5", "GOLD", "IV", 10, 1, 2⟩]), none⟩)],
        [("RANKED_FLEX_SR", [⟨1, "Q", "SILVER I 1 LP", 0, 0⟩])],
        false, 3600, none, false⟩
      (some ["RANKED_SOLO_5x5"]) true
      = .ok (some [⟨"1", "P", "GOLD IV 10 LP", 1, 2⟩],
          ⟨[("P", ⟨some ⟨"pid", "P"⟩,
              some (.ok [⟨"RANKED_SOLO_5x5", "GOLD", "IV", 10, 1, 2⟩]), none⟩)],
           [("RANKED_FLEX_SR", [⟨1, "Q", "SILVER I 1 LP", 0, 0⟩]),
            ("RANKED_SOLO_5x5", [⟨1, "P", "GOLD IV 10 LP", 1, 2⟩])],
           false, 3600, none, false⟩)
    ∧ dictGet?
        (dictSet [("RANKED_FLEX_SR", [(⟨1, "Q", "SILVER I 1 LP", 0, 0⟩ : TableRow)])]
          "RANKED_SOLO_5x5" [⟨1, "P", "GOLD IV 10 LP", 1, 2⟩]) "RANKED_FLEX_SR"
      = dictGet? [("RANKED_FLEX_SR", [(⟨1, "Q", "SILVER I 1 LP", 0, 0⟩ : TableRow)])]
          "RANKED_FLEX_SR" := by
  have h := C7_modcall_suppresses_but_overwrites
    ⟨[("P", ⟨some ⟨"pid", "P"⟩,
        some (.ok [⟨"RANKED_SOLO_5x5", "GOLD", "IV", 10, 1, 2⟩]), none⟩)],
      [("RANKED_FLEX_SR", [⟨1, "Q", "SILVER I 1 LP", 0, 0⟩])],
      false, 3600, none, false⟩
    "RANKED_SOLO_5x5" []
    [⟨"P", "RANKED_SOLO_5x5", 400010, "GOLD IV 10 LP", 1, 2⟩]
    "Ranked Solo/Duo" rfl rfl
  exact ⟨h.1, h.2 "RANKED_FLEX_SR" (by decide)⟩

/-! ## Lemmas for the delta annotation -/

theorem getIdx?_map {γ δ : Type} (f : γ → δ) (l : List γ) (i : Nat) :
    getIdx? (l.map f) i = (getIdx? l i).map f := by
  induction l generalizing i with
  | nil => cases i <;> rfl
  | cons c l ih => cases i with
    | zero => rfl
    | succ i => exact ih i

theorem lt_length_of_getIdx?_eq_some {γ : Type} (l : List γ) (i : Nat) (a : γ)
    (h : getIdx? l i = some a) : i < l.length := by
  induction l generalizing i with
  | nil => simp [getIdx?] at h
  | cons c l ih =>
    cases i with
    | zero => exact Nat.succ_pos _
    | succ i =>
      simp only [getIdx?] at h
      exact Nat.succ_lt_succ (ih i h)

theorem mem_of_getIdx?_eq_some {γ : Type} (l : List γ) (i : Nat) (a : γ)
    (h : getIdx? l i = some a) : a ∈ l := by
  induction l generalizing i with
  | nil => simp [getIdx?] at h
  | cons c l ih =>
    cases i with
    | zero =>
      simp only [getIdx?, Option.some.injEq] at h
      subst h
      exact List.mem_cons_self _ _
    | succ i => exact List.mem_cons_of_mem _ (ih i h)

theorem nodup_getIdx?_inj {γ : Type} (l : List γ) (hnd : l.Nodup) (i j : Nat)
    (a : γ) (hi : getIdx? l i = some a) (hj : getIdx? l j = some a) : i = j := by
  induction l generalizing i j with
  | nil => simp [getIdx?] at hi
  | cons c l ih =>
    rw [List.nodup_cons] at hnd
    cases i with
    | zero =>
      cases j with
      | zero => rfl
      | succ j =>
        simp only [getIdx?, Option.some.injEq] at hi
        subst hi
        exact absurd (mem_of_getIdx?_eq_some l j _ hj) hnd.1
    | succ i =>
      cases j with
      | zero =>
        simp only [getIdx?, Option.some.injEq] at hj
        subst hj
        exact absurd (mem_of_getIdx?_eq_some l i _ hi) hnd.1
      | succ j =>
        simp only [getIdx?] at hi hj
        exact congrArg Nat.succ (ih hnd.2 i j hi hj)

theorem getIdx?_set_self {γ : Type} (l : List γ) (i : Nat) (a : γ)
    (h : i < l.length) : getIdx? (l.set i a) i = some a := by
  induction l generalizing i with
  | nil => simp at h
  | cons c l ih =>
    cases i with
    | zero => rfl
    | succ i =>
      simp only [List.set, getIdx?]
      exact ih i (Nat.lt_of_succ_lt_succ h)

theorem getIdx?_set_of_ne {γ : Type} (l : List γ) (i j : Nat) (a : γ) (h : i ≠ j) :
    getIdx? (l.set i a) j = getIdx? l j := by
  induction l generalizing i j with
  | nil => rfl
  | cons c l ih =>
    cases i with
    | zero =>
      cases j with
      | zero => exact absurd rfl h
      | succ j => rfl
    | succ i =>
      cases j with
      | zero => rfl
      | succ j =>
        simp only [List.set, getIdx?]
        exact ih i j (fun hh => h (congrArg Nat.succ hh))

theorem annotateFrom_length (tt : List TableRow) :
    ∀ (last : List TableRow) (li : Nat) (r : List DisplayRow),
      (annotateFrom tt li last r).length = r.length := by
  intro last
  induction last with
  | nil => intro li r; rfl
  | cons lRow rest ih =>
    intro li r
    show (annotateFrom tt (li + 1) rest _).length = _
    rw [ih]
    cases hf : findFirstIdx (fun u => u.name == lRow.name) tt with
    | none => rfl
    | some yi =>
      simp only [hf]
      cases hg : getIdx? tt yi with
      | none => rfl
      | some t => simp [List.length_set]

theorem annotateFrom_get_untouched (tt : List TableRow) (yi : Nat) :
    ∀ (last : List TableRow) (li : Nat) (r : List DisplayRow),
      (∀ lRow ∈ last, findFirstIdx (fun u => u.name == lRow.name) tt ≠ some yi) →
      getIdx? (annotateFrom tt li last r) yi = getIdx? r yi := by
  intro last
  induction last with
  | nil => intro li r _; rfl
  | cons lRow rest ih =>
    intro li r hall
    show getIdx? (annotateFrom tt (li + 1) rest _) yi = _
    rw [ih (li + 1) _ (fun l hl => hall l (List.mem_cons_of_mem _ hl))]
    cases hf : findFirstIdx (fun u => u.name == lRow.name) tt with
    | none => rfl
    | some y =>
      have hy : y ≠ yi := by
        intro hcontra
        exact hall lRow (List.mem_cons_self _ _) (by rw [hf, hcontra])
      simp only [hf]
      cases hg : getIdx? tt y with
      | none => rfl
      | some t => exact getIdx?_set_of_ne r y yi _ hy

theorem annotateFrom_get_found (tt : List TableRow) (t : TableRow) (yi : Nat)
    (hyt : getIdx? tt yi = some t)
    (httn : (tt.map TableRow.name).Nodup) :
    ∀ (last : List TableRow) (li0 : Nat) (r : List DisplayRow),
      (last.map TableRow.name).Nodup → r.length = tt.length →
      ∀ (k : Nat) (lRow : TableRow),
        findFirstIdx (fun u => u.name == t.name) last = some k →
        getIdx? last k = some lRow →
        getIdx? (annotateFrom tt li0 last r) yi
          = some (annRow t lRow.spot (li0 + k) yi) := by
  intro last
  induction last with
  | nil =>
    intro li0 r _ _ k lRow hfind _
    simp [findFirstIdx] at hfind
  | cons lhead rest ih =>
    intro li0 r hlnd hlen k lRow hfind hget
    simp only [List.map_cons, List.nodup_cons] at hlnd
    by_cases hh : (lhead.name == t.name) = true
    · have hk0 : k = 0 := by
        simp only [findFirstIdx, if_pos hh, Option.some.injEq] at hfind
        exact hfind.symm
      subst hk0
      have hlr : lhead = lRow := by
        simpa [getIdx?] using hget
      have hname : lhead.name = t.name := eq_of_beq hh
      have hfirst : findFirstIdx (fun u => u.name == lhead.name) tt = some yi := by
        apply findFirstIdx_of_getIdx? _ _ _ t hyt
        · simp [hname]
        · intro j b hj hb
          by_contra hcontra
          rw [Bool.not_eq_false] at hcontra
          have hbn : b.name = t.name := by
            rw [eq_of_beq hcontra, hname]
          have hmapj : getIdx? (tt.map TableRow.name) j = some t.name := by
            rw [getIdx?_map, hb]
            simp [hbn]
          have hmapy : getIdx? (tt.map TableRow.name) yi = some t.name := by
            rw [getIdx?_map, hyt]
            rfl
          have := nodup_getIdx?_inj _ httn j yi t.name hmapj hmapy
          omega
      show getIdx? (annotateFrom tt (li0 + 1) rest _) yi = _
      rw [annotateFrom_get_untouched tt yi rest (li0 + 1) _ ?_]
      · simp only [hfirst, hyt]
        rw [getIdx?_set_self]
        · rw [← hlr]
          simp
        · rw [hlen]
          exact lt_length_of_getIdx?_eq_some tt yi t hyt
      · intro l hl hcontra
        obtain ⟨a, ha, hpa⟩ := findFirstIdx_eq_some _ _ _ hcontra
        rw [hyt] at ha
        injection ha with ha
        subst ha
        have hln : l.name = t.name := (eq_of_beq hpa).symm
        exact hlnd.1 (by rw [hname, ← hln]; exact List.mem_map_of_mem _ hl)
    · have hrest : ∃ k', findFirstIdx (fun u => u.name == t.name) rest = some k'
          ∧ k = k' + 1 := by
        simp only [findFirstIdx, if_neg hh] at hfind
        cases hrec : findFirstIdx (fun u => u.name == t.name) rest with
        | none => rw [hrec] at hfind; simp at hfind
        | some k' =>
          rw [hrec] at hfind
          simp only [Option.map_some', Option.some.injEq] at hfind
          exact ⟨k', rfl, hfind.symm⟩
      obtain ⟨k', hfind', hk⟩ := hrest
      subst hk
      have hget' : getIdx? rest k' = some lRow := hget
      have harith : li0 + 1 + k' = li0 + (k' + 1) := by omega
      show getIdx? (annotateFrom tt (li0 + 1) rest _) yi = _
      cases hf : findFirstIdx (fun u => u.name == lhead.name) tt with
      | none =>
        simp only [hf]
        rw [ih (li0 + 1) r hlnd.2 hlen k' lRow hfind' hget', harith]
      | some y =>
        simp only [hf]
        cases hg : getIdx? tt y with
        | none =>
          simp only [hg]
          rw [ih (li0 + 1) r hlnd.2 hlen k' lRow hfind' hget', harith]
        | some ty =>
          simp only [hg]
          rw [ih (li0 + 1) _ hlnd.2 (by rw [List.length_set]; exact hlen)
            k' lRow hfind' hget', harith]

/-- C4: the delta computation.  For new table `tt` and stored table
`last` with pairwise-distinct names: a new row whose name is absent from
`last` is returned untouched (no movement indicator); a new row at
position `yi` found at stored position `li` is annotated, and — when the
position cells are the canonical `pos + 1` values the code writes — the
annotation is an up indicator of magnitude `li - yi` when the row moved
up (`yi < li`), a down indicator of magnitude `yi - li` when it moved
down (`li < yi`), and no indicator when the position is unchanged. -/
theorem C4_delta_contract (tt last : List TableRow) (yi : Nat) (t : TableRow)
    (httn : (tt.map TableRow.name).Nodup)
    (hlastn : (last.map TableRow.name).Nodup)
    (hyt : getIdx? tt yi = some t) :
    (findFirstIdx (fun u => u.name == t.name) last = none →
      getIdx? (annotateFrom tt 0 last (tt.map toDisplay)) yi = some (toDisplay t))
    ∧ (∀ (li : Nat) (lRow : TableRow),
        findFirstIdx (fun u => u.name == t.name) last = some li →
        getIdx? last li = some lRow →
        getIdx? (annotateFrom tt 0 last (tt.map toDisplay)) yi
          = some (annRow t lRow.spot li yi)
        ∧ (t.spot = yi + 1 → lRow.spot = li + 1 →
            annRow t lRow.spot li yi
              = ⟨(if yi < li then "▲" ++ toString ((li : Int) - (yi : Int)) ++ " "
                  else if li < yi then "▼" ++ toString ((yi : Int) - (li : Int)) ++ " "
                  else "") ++ toString yi,
                 t.name, t.rang, t.wins, t.losses⟩)) := by
  constructor
  · intro hnone
    rw [annotateFrom_get_untouched tt yi last 0 _ ?_]
    · rw [getIdx?_map, hyt]
      rfl
    · intro lRow hl hcontra
      obtain ⟨a, ha, hpa⟩ := findFirstIdx_eq_some _ _ _ hcontra
      rw [hyt] at ha
      injection ha with ha
      subst ha
      have hfalse := (findFirstIdx_eq_none_iff _ _).mp hnone lRow hl
      have hln : lRow.name = t.name := (eq_of_beq hpa).symm
      rw [hln] at hfalse
      simp at hfalse
  · intro li lRow hfind hget
    constructor
    · have := annotateFrom_get_found tt t yi hyt httn last 0 (tt.map toDisplay)
        hlastn (by rw [List.length_map]) li lRow hfind hget
      simpa using this
    · intro hts hls
      unfold annRow movementText
      rw [hts, hls]
      rcases Nat.lt_trichotomy yi li with hlt | heq | hgt
      · have h1 : yi + 1 < li + 1 := Nat.succ_lt_succ hlt
        have h2 : ¬ (yi + 1 > li + 1) := Nat.lt_asymm h1
        rw [if_pos h1, if_neg h2, if_pos hlt, String.append_empty]
      · subst heq
        have h1 : ¬ (yi + 1 < yi + 1) := Nat.lt_irrefl _
        rw [if_neg h1, if_neg h1, if_neg (Nat.lt_irrefl yi),
          if_neg (Nat.lt_irrefl yi), String.append_empty]
      · have h1 : ¬ (yi + 1 < li + 1) := Nat.lt_asymm (Nat.succ_lt_succ hgt)
        have h2 : yi + 1 > li + 1 := Nat.succ_lt_succ hgt
        rw [if_neg h1, if_pos h2, if_neg (Nat.lt_asymm hgt), if_pos hgt,
          String.empty_append]

/-- Witness for C4: previous order `[A, B, C]`, new order `[B, A, C]` —
`B` is annotated up by 1, `A` down by 1, `C` gets no indicator (its
position cell is rewritten to the 0-based `2`, a display quirk of
line 268). -/
theorem C4_delta_witness :
    getIdx? (annotateFrom
        [⟨1, "B", "rB", 1, 2⟩, ⟨2, "A", "rA", 3, 4⟩, ⟨3, "C", "rC", 5, 6⟩] 0
        [⟨1, "A", "rA", 3, 4⟩, ⟨2, "B", "rB", 1, 2⟩, ⟨3, "C", "rC", 5, 6⟩]
        ([(⟨1, "B", "rB", 1, 2⟩ : TableRow), ⟨2, "A", "rA", 3, 4⟩,
          ⟨3, "C", "rC", 5, 6⟩].map toDisplay)) 0
      = some ⟨"▲1 0", "B", "rB", 1, 2⟩
    ∧ getIdx? (annotateFrom
        [⟨1, "B", "rB", 1, 2⟩, ⟨2, "A", "rA", 3, 4⟩, ⟨3, "C", "rC", 5, 6⟩] 0
        [⟨1, "A", "rA", 3, 4⟩, ⟨2, "B", "rB", 1, 2⟩, ⟨3, "C", "rC", 5, 6⟩]
        ([(⟨1, "B", "rB", 1, 2⟩ : TableRow), ⟨2, "A", "rA", 3, 4⟩,
          ⟨3, "C", "rC", 5, 6⟩].map toDisplay)) 1
      = some ⟨"▼1 1", "A", "rA", 3, 4⟩
    ∧ getIdx? (annotateFrom
        [⟨1, "B", "rB", 1, 2⟩, ⟨2, "A", "rA", 3, 4⟩, ⟨3, "C", "rC", 5, 6⟩] 0
        [⟨1, "A", "rA", 3, 4⟩, ⟨2, "B", "rB", 1, 2⟩, ⟨3, "C", "rC", 5, 6⟩]
        ([(⟨1, "B", "rB", 1, 2⟩ : TableRow), ⟨2, "A", "rA", 3, 4⟩,
          ⟨3, "C", "rC", 5, 6⟩].map toDisplay)) 2
      = some ⟨"2", "C", "rC", 5, 6⟩ := by
  have hB := (C4_delta_contract
    [⟨1, "B", "rB", 1, 2⟩, ⟨2, "A", "rA", 3, 4⟩, ⟨3, "C", "rC", 5, 6⟩]
    [⟨1, "A", "rA", 3, 4⟩, ⟨2, "B", "rB", 1, 2⟩, ⟨3, "C", "rC", 5, 6⟩]
    0 ⟨1, "B", "rB", 1, 2⟩ (by decide) (by decide) rfl).2 1 ⟨2, "B", "rB", 1, 2⟩
    rfl rfl
  have hA := (C4_delta_contract
    [⟨1, "B", "rB", 1, 2⟩, ⟨2, "A", "rA", 3, 4⟩, ⟨3, "C", "rC", 5, 6⟩]
    [⟨1, "A", "rA", 3, 4⟩, ⟨2, "B", "rB", 1, 2⟩, ⟨3, "C", "rC", 5, 6⟩]
    1 ⟨2, "A", "rA", 3, 4⟩ (by decide) (by decide) rfl).2 0 ⟨1, "A", "rA", 3, 4⟩
    rfl rfl
  have hC := (C4_delta_contract
    [⟨1, "B", "rB", 1, 2⟩, ⟨2, "A", "rA", 3, 4⟩, ⟨3, "C", "rC", 5, 6⟩]
    [⟨1, "A", "rA", 3, 4⟩, ⟨2, "B", "rB", 1, 2⟩, ⟨3, "C", "rC", 5, 6⟩]
    2 ⟨3, "C", "rC", 5, 6⟩ (by decide) (by decide) rfl).2 2 ⟨3, "C", "rC", 5, 6⟩
    rfl rfl
  exact ⟨hB.1, hA.1, hC.1⟩

end Uol
